import Mathlib

/-!
Verification development for the DataPortal-Metadata harvester's
mapping-driven XML assembly engine.

The Python sources under `src/` are shallowly embedded here:

* JSON-shaped source records become the inductive type `Val`
  (`src/xml_builder.py` treats records as arbitrary nested
  dict/list/scalar data).
* `lxml` element trees become the inductive type `XNode`; element
  identity/mutation is replaced by positions (lists of child indices)
  and functional update.
* Python exceptions that abort a build are modelled by `Option`
  results (`none` = the call raised).

Each embedded definition keeps the name of the Python function it
translates and is annotated with its origin.
-/

namespace DataPortal

/-- Embedding of the Python values the builder manipulates: `None`,
booleans, ints, strings, lists and (string-keyed) dicts.  Dicts are
association lists; lookup follows Python's "last assignment wins"
semantics via `pyDictGet`. -/
inductive Val where
  | vnull : Val
  | vbool (b : Bool) : Val
  | vint (n : Int) : Val
  | vstr (s : String) : Val
  | vlist (xs : List Val) : Val
  | vdict (ps : List (String × Val)) : Val
deriving Repr

/-- Python truthiness (`if x:`): `None`, `False`, `0`, `""`, `[]`, `{}`
are falsy, everything else truthy. -/
def pyTruthy : Val → Bool
  | .vnull => false
  | .vbool b => b
  | .vint n => n != 0
  | .vstr s => s != ""
  | .vlist xs => !xs.isEmpty
  | .vdict ps => !ps.isEmpty

/-- The test `value in (None, "", [])` used by `set_text` and
`normalize_controlled_value` (membership by `==`, so `0`/`False` are
*not* matched). -/
def pyIsEmptyish : Val → Bool
  | .vnull => true
  | .vstr s => s == ""
  | .vlist xs => xs.isEmpty
  | _ => false

mutual

/-- Python `repr` for the embedded values (strings quoted, lists and
dicts rendered recursively); string-escape corner cases are not
modelled because no traversed data needs them. -/
def pyRepr : Val → String
  | .vnull => "None"
  | .vbool b => if b then "True" else "False"
  | .vint n => toString n
  | .vstr s => "\x27" ++ s ++ "\x27"
  | .vlist xs => "[" ++ pyReprList xs ++ "]"
  | .vdict ps => "\x7b" ++ pyReprDict ps ++ "\x7d"

/-- Comma-joined `repr` of list elements. -/
def pyReprList : List Val → String
  | [] => ""
  | [x] => pyRepr x
  | x :: y :: xs => pyRepr x ++ ", " ++ pyReprList (y :: xs)

/-- Comma-joined `repr` of dict items. -/
def pyReprDict : List (String × Val) → String
  | [] => ""
  | [(k, v)] => "\x27" ++ k ++ "\x27: " ++ pyRepr v
  | (k, v) :: y :: xs => "\x27" ++ k ++ "\x27: " ++ pyRepr v ++ ", " ++ pyReprDict (y :: xs)

end

/-- Python `str`: identity on strings, `repr`-like rendering of the
other shapes (`str(None) = "None"`, `str([..]) = "[..]"`, ...). -/
def pyStr : Val → String
  | .vstr s => s
  | v => pyRepr v

/-- Python `len` (raises `TypeError`, i.e. `none`, on `None`, ints and
booleans). -/
def pyLen : Val → Option Nat
  | .vstr s => some s.length
  | .vlist xs => some xs.length
  | .vdict ps => some ps.length
  | _ => none

/-- Python iteration (`for x in v`): a list yields its elements, a
string its characters as one-character strings, a dict its keys;
`None`/ints/bools raise `TypeError` (`none`). -/
def pyIter : Val → Option (List Val)
  | .vstr s => some (s.toList.map (fun c => .vstr (String.singleton c)))
  | .vlist xs => some xs
  | .vdict ps => some (ps.map (fun p => .vstr p.1))
  | _ => none

/-- Python dict lookup `d.get(k)` on an association list built by
repeated assignment: the *last* binding of a key wins, matching dict
literal / comprehension semantics. -/
def pyDictGet {α : Type} : List (String × α) → String → Option α
  | [], _ => none
  | (k, v) :: rest, key =>
    match pyDictGet rest key with
    | some r => some r
    | none => if k == key then some v else none

/-- Python `str.strip()` (whitespace at both ends).  Implemented over
the character list so that it computes inside the kernel. -/
def pyStrip (s : String) : String :=
  String.mk (((s.toList.dropWhile Char.isWhitespace).reverse.dropWhile
    Char.isWhitespace).reverse)

/-- Python `str.lower()` restricted to ASCII plus the Latin-1 uppercase
letters (covering every accented key in `controlled_vocab.py`); full
Unicode case folding is not needed by the traversed data. -/
def pyCharLower (c : Char) : Char :=
  if 65 ≤ c.toNat ∧ c.toNat ≤ 90 then Char.ofNat (c.toNat + 32)
  else if 192 ≤ c.toNat ∧ c.toNat ≤ 222 ∧ c.toNat ≠ 215 then Char.ofNat (c.toNat + 32)
  else c

/-- `str.lower()` on a whole string. -/
def pyLower (s : String) : String := String.mk (s.toList.map pyCharLower)

/-- Digits-to-number helper for `pyParseInt`. -/
def natOfDigits (cs : List Char) : Nat :=
  cs.foldl (fun a c => a * 10 + (c.toNat - 48)) 0

/-- Python `int(s)`: optional surrounding whitespace, optional sign,
then decimal digits; anything else raises `ValueError` (`none`).
(Underscore digit grouping, which no traversed path uses, is not
modelled.) -/
def pyParseInt (s : String) : Option Int :=
  let tl := (pyStrip s).toList
  let neg := ([Char.ofNat 45].isPrefixOf tl)
  let digits := if neg ∨ [Char.ofNat 43].isPrefixOf tl then tl.drop 1 else tl
  if digits.length > 0 ∧ digits.all Char.isDigit then
    some ((if neg then (-1 : Int) else 1) * (natOfDigits digits : Int))
  else none

/-- Fuel-driven worker for `pySplitOn`; the fuel starts at the input
length, which each step strictly decreases in characters consumed, so
the fuel never runs out before the input does. -/
def splitOnAuxL (sep : List Char) : Nat → List Char → List Char → List (List Char)
  | 0, _, acc => [acc.reverse]
  | fuel + 1, cs, acc =>
    match cs with
    | [] => [acc.reverse]
    | c :: rest =>
      if sep.isPrefixOf (c :: rest) then
        acc.reverse :: splitOnAuxL sep fuel (List.drop sep.length (c :: rest)) []
      else splitOnAuxL sep fuel rest (c :: acc)

/-- Python `s.split(sep)` for a non-empty separator (empty parts are
kept, occurrences are consumed left to right without overlap). -/
def pySplitOn (s sep : String) : List String :=
  if sep.toList.isEmpty then [s]
  else (splitOnAuxL sep.toList s.toList.length s.toList []).map String.mk

/-- Fuel-driven worker for `pyReplace`. -/
def replaceAuxL (pat rep : List Char) : Nat → List Char → List Char
  | 0, cs => cs
  | fuel + 1, cs =>
    match cs with
    | [] => []
    | c :: rest =>
      if pat.isPrefixOf (c :: rest) then
        rep ++ replaceAuxL pat rep fuel (List.drop pat.length (c :: rest))
      else c :: replaceAuxL pat rep fuel rest

/-- Python `s.replace(pat, rep)` for a non-empty pattern. -/
def pyReplace (s pat rep : String) : String :=
  if pat.toList.isEmpty then s
  else String.mk (replaceAuxL pat.toList rep.toList s.toList.length s.toList)

/-- Python `s.startswith(p)`. -/
def pyStartsWith (s p : String) : Bool :=
  p.toList.isPrefixOf s.toList

/-- Python list indexing `xs[i]`: non-negative indices are bounds
checked, negative indices address from the end (`xs[-1]` is the last
element); out-of-range raises `IndexError` (`none`). -/
def pyListGet (xs : List Val) (i : Int) : Option Val :=
  if 0 ≤ i then xs.get? i.toNat
  else if 0 ≤ (xs.length : Int) + i then xs.get? ((xs.length : Int) + i).toNat
  else none

/-- Python `list.insert(i, a)` for non-negative `i` (clamps at the
end). -/
def pyInsert {α : Type} (xs : List α) (i : Nat) (a : α) : List α :=
  xs.take i ++ a :: xs.drop i

/-!
## The element-tree model

`lxml` element trees become `XNode`: tag (fully-qualified, Clark
notation), attribute list, optional text, children.  Where the Python
code holds element references and mutates in place, the embedding
addresses nodes by their position — the list of child indices from the
root — and rebuilds functionally with `modifyAt`.
-/

/-- An element of the XML document: tag, attributes, text, children. -/
inductive XNode where
  | elem (tag : String) (attrs : List (String × String)) (text : Option String)
      (children : List XNode) : XNode
deriving Repr

/-- The element's tag. -/
def XNode.tag : XNode → String
  | .elem t _ _ _ => t

/-- The element's attribute list. -/
def XNode.attrs : XNode → List (String × String)
  | .elem _ a _ _ => a

/-- The element's text (`node.text`). -/
def XNode.text : XNode → Option String
  | .elem _ _ x _ => x

/-- The element's child list. -/
def XNode.children : XNode → List XNode
  | .elem _ _ _ cs => cs

/-- Replace the whole child list (used to model removals/inserts done
through the container element). -/
def XNode.withChildren (cs : List XNode) : XNode → XNode
  | .elem t a x _ => .elem t a x cs

/-- `node.text = s` -/
def setTextF (s : String) : XNode → XNode
  | .elem t a _ cs => .elem t a (some s) cs

/-- `node.set(k, v)` — lxml replaces an existing attribute in place,
otherwise appends. -/
def attrSet (k v : String) : List (String × String) → List (String × String)
  | [] => [(k, v)]
  | (a, b) :: rest => if a == k then (a, v) :: rest else (a, b) :: attrSet k v rest

/-- `node.set(k, v)` on an element. -/
def setAttrF (k v : String) : XNode → XNode
  | .elem t a x cs => .elem t (attrSet k v a) x cs

/-- `node.attrib.pop(k, None)` on an element. -/
def popAttrF (k : String) : XNode → XNode
  | .elem t a x cs => .elem t (a.filter (fun p => p.1 ≠ k)) x cs

/-- Node at a position (list of child indices); `none` when the
position does not exist. -/
def getNode : XNode → List Nat → Option XNode
  | t, [] => some t
  | .elem _ _ _ cs, i :: p =>
    match cs[i]? with
    | none => none
    | some c => getNode c p

/-- Apply `f` to the node at a position, rebuilding the ancestors; the
tree is unchanged when the position does not exist. -/
def modifyAt (f : XNode → XNode) : XNode → List Nat → XNode
  | t, [] => f t
  | .elem tg a x cs, i :: p =>
    match cs[i]? with
    | none => .elem tg a x cs
    | some c => .elem tg a x (cs.set i (modifyAt f c p))

/-- The text of the node at a position. -/
def textAt (t : XNode) (p : List Nat) : Option String :=
  (getNode t p).bind XNode.text

/-- An attribute of the node at a position. -/
def attrAt (t : XNode) (p : List Nat) (k : String) : Option String :=
  (getNode t p).bind (fun n => n.attrs.lookup k)

mutual

/-- Positions of all strict descendants of a node, in document
(preorder) order — the order in which `lxml` reports `.//` matches. -/
def descPos : XNode → List (List Nat)
  | .elem _ _ _ cs => descPosAux cs 0

/-- Helper walking a child list starting at index `i`. -/
def descPosAux : List XNode → Nat → List (List Nat)
  | [], _ => []
  | c :: rest, i => ([i] :: (descPos c).map (fun p => i :: p)) ++ descPosAux rest (i + 1)

end

/-- Positions of the strict descendants carrying a given tag — the
node set of `t.xpath(".//tag")` / `t.find(".//tag")`. -/
def findDesc (t : XNode) (tag : String) : List (List Nat) :=
  (descPos t).filter (fun p =>
    match getNode t p with
    | some n => n.tag == tag
    | none => false)

/-- One child step of a location path: positions (relative to the
tree root `t`) of the children of `p` carrying the given tag. -/
def childStep (t : XNode) (p : List Nat) (tag : String) : List (List Nat) :=
  match getNode t p with
  | none => []
  | some n =>
    ((List.range n.children.length).filter
      (fun i => match n.children[i]? with
        | some c => c.tag == tag
        | none => false)).map (fun i => p ++ [i])

/-- Remaining child steps of a location path. -/
def childSteps (t : XNode) (p : List Nat) : List String → List (List Nat)
  | [] => [p]
  | tag :: rest => (childStep t p tag).flatMap (fun q => childSteps t q rest)

/-- Evaluate a relative location path `.//a/b/c` (the only XPath shape
the builder issues): descendant search on the first tag, child steps
for the rest. -/
def relFind (t : XNode) : List String → List (List Nat)
  | [] => []
  | tag :: rest => (findDesc t tag).flatMap (fun p => childSteps t p rest)

/-- The ISO namespace prefix table registered at the top of
`xml_builder.py`. -/
def namespaces : List (String × String) :=
  [ ("gmd", "http://www.isotc211.org/2005/gmd"),
    ("gco", "http://www.isotc211.org/2005/gco"),
    ("gfc", "http://www.isotc211.org/2005/gfc"),
    ("srv", "http://www.isotc211.org/2005/srv"),
    ("gmx", "http://www.isotc211.org/2005/gmx"),
    ("gts", "http://www.isotc211.org/2005/gts"),
    ("gsr", "http://www.isotc211.org/2005/gsr"),
    ("gss", "http://www.isotc211.org/2005/gss"),
    ("gmi", "http://www.isotc211.org/2005/gmi"),
    ("napm", "http://www.geconnections.org/nap/napMetadataTools/napXsd/napm"),
    ("gml", "http://www.opengis.net/gml/3.2"),
    ("xlink", "http://www.w3.org/1999/xlink"),
    ("xsi", "http://www.w3.org/2001/XMLSchema-instance") ]

/-- `resolve_tag` (`src/src/xml_builder.py`): convert a
namespace-prefixed tag to the fully-qualified Clark QName.  The source
raises on a malformed tag or unknown prefix (never exercised); here
such tags pass through unchanged. -/
def resolve_tag (tag : String) : String :=
  if !(tag.toList.contains (Char.ofNat 58)) then tag
  else
    match pySplitOn tag ":" with
    | [pre, t] =>
      match pyDictGet namespaces pre with
      | some ns => "\x7b" ++ ns ++ "\x7d" ++ t
      | none => tag
    | _ => tag

/-- Split an XPath string like `.//gmd:a/gco:b` into its resolved tag
segments, the form consumed by `relFind`. -/
def xpathSegments (s : String) : List String :=
  ((pySplitOn s "/").filter (fun x => x ≠ "" ∧ x ≠ ".")).map resolve_tag

/-- `tree.xpath(xpath, namespaces=...)` for the relative
descendant-location paths the builder uses. -/
def xpathEval (t : XNode) (xpath : String) : List (List Nat) :=
  relFind t (xpathSegments xpath)

/-- Substring test (`pat in s` for a non-empty literal `pat`), used by
`set_text` for its `"/gco:Date" in xpath` checks. -/
def hasSubstr (s pat : String) : Bool :=
  (pySplitOn s pat).length != 1

/-!
## Controlled vocabulary (`src/src/controlled_vocab.py`, `src/src/normalization.py`)

`CONTROLLED_VOCAB` is the static table of `controlled_vocab.py`,
kept in source order *including* its repeated literal keys — Python
dict literals keep the last binding, which `pyDictGet` reproduces.
-/

/-- The `CONTROLLED_VOCAB` table of `src/src/controlled_vocab.py`. -/
def CONTROLLED_VOCAB : List (String × List (String × String)) :=
  [ ("language",
     [ ("EN", "eng; CAN"), ("FR", "fra; CAN") ]),
    ("characterSet",
     [ ("utf8", "utf8; utf8") ]),
    ("role",
     [ ("Resource Provider", "resourceProvider; fournisseurDeRessource"),
       ("Custodian", "custodian; gardien"),
       ("Owner", "owner; proprietaire"),
       ("User", "user; utilisateur"),
       ("Distributor", "distributor; distributeur"),
       ("Originator", "originator; createur"),
       ("Point of Contact", "pointOfContact; contact"),
       ("Principal Investigator", "principalInvestigator; chercheurPrincipal"),
       ("Processor", "processor; responsableDuTraitement"),
       ("Publisher", "publisher; editeur"),
       ("Author", "author; auteur"),
       ("Sponsor", "sponsor; commanditaire"),
       ("Co-Author", "coAuthor; coauteur"),
       ("Collaborator", "collaborator; collaborateur"),
       ("Editor", "editor; redacteur"),
       ("Mediator", "mediator; mediateur"),
       ("Rights Holder", "rightsHolder; titulaireDesDroits"),
       ("Fournisseur de ressource", "resourceProvider; fournisseurDeRessource"),
       ("Gardien", "custodian; gardien"),
       ("Propriétaire", "owner; proprietaire"),
       ("Utilisateur", "user; utilisateur"),
       ("Distributeur", "distributor; distributeur"),
       ("Créateur", "originator; createur"),
       ("Contact", "pointOfContact; contact"),
       ("Chercheur Principal", "principalInvestigator; chercheurPrincipal"),
       ("Responsable du traitement", "processor; responsableDuTraitement"),
       ("Éditeur", "publisher; editeur"),
       ("Auteur", "author; auteur"),
       ("Commanditaire", "sponsor; commanditaire"),
       ("Coauteur", "coAuthor; coauteur"),
       ("Collaborateur", "collaborator; collaborateur"),
       ("Rédacteur", "editor; redacteur"),
       ("Médiateur", "mediator; mediateur"),
       ("Titulaire des droits", "rightsHolder; titulaireDesDroits"),
       ("point of contact", "pointOfContact; contact"),
       ("Principal Investigator", "principalInvestigator; chercheurPrincipal"),
       ("contact", "pointOfContact; contact"),
       ("Chercheur Principal", "principalInvestigator; chercheurPrincipal") ]),
    ("status",
     [ ("Completed", "completed; termine"),
       ("Historical Archive", "historicalArchive; archiveHistorique"),
       ("Obsolete", "obsolete; obsolete"),
       ("Ongoing", "onGoing; enContinue"),
       ("Planned", "planned; planifie"),
       ("Required", "required; requis"),
       ("Under Development", "underDevelopment; enDeveloppement"),
       ("Proposed", "proposed; propose"),
       ("Terminé", "completed; termine"),
       ("Archive historique", "historicalArchive; archiveHistorique"),
       ("Obsolète", "obsolete; obsolete"),
       ("En continue", "onGoing; enContinue"),
       ("Planifié", "planned; planifie"),
       ("Requis", "required; requis"),
       ("En développement", "underDevelopment; enDeveloppement"),
       ("Proposé", "proposed; propose"),
       ("Ongoing Test", "onGoing; enContinue") ]),
    ("keyword",
     [ ("Economics", "economics"),
       ("Enforcement", "enforcement"),
       ("Enhancement", "enhancement"),
       ("Fisheries Management", "fisheriesManagement"),
       ("Aquaculture", "aquaculture"),
       ("Habitat", "habitat"),
       ("Science", "science"),
       ("Économie", "economics"),
       ("Application", "enforcement"),
       ("Amélioration", "enhancement"),
       ("Gestion des pêches", "fisheriesManagement"),
       ("Aquaculture", "aquaculture"),
       ("Habitat", "habitat"),
       ("Science", "science") ]),
    ("topicCategory",
     [ ("Farming", "farming"),
       ("Biota", "biota"),
       ("Boundaries", "boundaries"),
       ("Climatology / Meteorology / Atmosphere", "climatologyMeteorologyAtmosphere"),
       ("Economy", "economy"),
       ("Elevation", "elevation"),
       ("Environment", "environment"),
       ("Geoscientific Information", "geoscientificInformation"),
       ("Health", "health"),
       ("Imagery / Base Maps / Earth Cover", "imageryBaseMapsEarthCover"),
       ("Intelligence / Military", "intelligenceMilitary"),
       ("Inland Waters", "inlandWaters"),
       ("Location", "location"),
       ("Oceans", "oceans"),
       ("Planning / Cadastre", "planningCadastre"),
       ("Society", "society"),
       ("Structure", "structure"),
       ("Transportation", "transportation"),
       ("Utilities / Communication", "utilitiesCommunication"),
       ("Agriculture", "farming"),
       ("Biote", "biota"),
       ("Limites", "boundaries"),
       ("Climatologie / Météorologie / Atmosphère", "climatologyMeteorologyAtmosphere"),
       ("Économie", "economy"),
       ("Élévation", "elevation"),
       ("Environnement", "environment"),
       ("Information géoscientifique", "geoscientificInformation"),
       ("Santé", "health"),
       ("Imagerie / Cartes de base / Occupation des terres", "imageryBaseMapsEarthCover"),
       ("Renseignement / Militaire", "intelligenceMilitary"),
       ("Eaux intérieures", "inlandWaters"),
       ("Localisation", "location"),
       ("Océans", "oceans"),
       ("Aménagement / Cadastre", "planningCadastre"),
       ("Société", "society"),
       ("Structure", "structure"),
       ("Transport", "transportation"),
       ("Services publics / Communication", "utilitiesCommunication") ]),
    ("updateFrequency",
     [ ("As available", "continual; continuellement"),
       ("Daily", "daily; quotidien"),
       ("Weekly", "weekly; hebdomadaire"),
       ("Every 2 Weeks", "fortnightly; bimensuel"),
       ("Monthly", "monthly; mensuel"),
       ("Quarterly (Every 3 Months)", "quarterly; trimestriel"),
       ("Semi-Annual (Every 6 Months)", "biannually; semestriel"),
       ("Annually", "annually; annuel"),
       ("On Demand", "asNeeded; au besoin"),
       ("Irregularly", "irregular; irrégulier"),
       ("Twice Monthly", "semimonthly; bimensuel"),
       ("Selon disponibilité", "continual; continuellement"),
       ("Quotidiennement", "daily; quotidien"),
       ("Hebdomadairement", "weekly; hebdomadaire"),
       ("Toutes les deux semaines", "fortnightly; bimensuel"),
       ("Mensuellement", "monthly; mensuel"),
       ("Trimestriellement (Tous les trois mois)", "quarterly; trimestriel"),
       ("Semestriellement (Tous les six mois)", "biannually; semestriel"),
       ("Annuellement", "annually; annuel"),
       ("À la demande", "asNeeded; au besoin"),
       ("De manière irrégulière", "irregular; irrégulier"),
       ("Deux fois par mois", "semimonthly; bimensuel") ]),
    ("classification",
     [ ("Unclassified", "unclassified; nonClassifié"),
       ("Restricted", "restricted; restreint"),
       ("Confidential", "confidential; confidentiel"),
       ("Secret", "secret; secret"),
       ("Top Secret", "topSecret: trèsSecret"),
       ("Sensitive", "sensitive; sensible"),
       ("For Official Use Only", "forOfficialUseOnly; réservéÀOrganisation"),
       ("Non classifié", "unclassified; nonClassifié"),
       ("Restreint", "restricted; restreint"),
       ("Confidentiel", "confidential; confidentiel"),
       ("Secret", "secret; secret"),
       ("Très Secret", "topSecret: trèsSecret"),
       ("Sensible", "sensitive; sensible"),
       ("Réservé À Organisation", "forOfficialUseOnly; réservéÀOrganisation") ]),
    ("spatialType",
     [ ("Vector", "vector; vecteur"),
       ("Grid", "grid; grille"),
       ("Text Table", "textTable; tableTexte"),
       ("TIN", "tin; tin"),
       ("Stereo Model", "stereoModel; modeleStereo"),
       ("Video", "video; video"),
       ("Vecteur", "vector; vecteur"),
       ("Grille", "grid; grille"),
       ("Table texte", "textTable; tableTexte"),
       ("TIN", "tin; tin"),
       ("Modèle stéréo", "stereoModel; modeleStereo"),
       ("Vidéo", "video; video") ]) ]

/-- `_normalize_vocab` (`src/src/normalization.py`): lowercase and
strip every raw key, per field. -/
def _normalize_vocab (vocab : List (String × List (String × String))) :
    List (String × List (String × String)) :=
  vocab.map (fun fm => (fm.1, fm.2.map (fun kv => (pyLower (pyStrip kv.1), kv.2))))

/-- `NORMALIZED_VOCAB` (`src/src/normalization.py`), built once when
the module loads. -/
def NORMALIZED_VOCAB : List (String × List (String × String)) :=
  _normalize_vocab CONTROLLED_VOCAB

/-- Per-item lookup body of `normalize_controlled_value`: strip/lower
the item, look it up, substitute the entry when truthy, otherwise fall
back to the original item. -/
def normItem (vocab : List (String × String)) (item : Val) : Val :=
  match pyDictGet vocab (pyLower (pyStrip (pyStr item))) with
  | some entry => if entry == "" then item else .vstr entry
  | none => item

/-- `normalize_controlled_value` (`src/src/normalization.py`).  The
`field` argument is `field.get("controlled")` at the call sites, hence
optional. -/
def normalize_controlled_value (field : Option String) (raw_value : Val) : Val :=
  if pyIsEmptyish raw_value then
    match raw_value with
    | .vlist _ => .vlist []
    | _ => .vstr ""
  else
    match field.bind (pyDictGet NORMALIZED_VOCAB) with
    | none => raw_value
    | some vocab =>
      if vocab.isEmpty then raw_value
      else
        match raw_value with
        | .vlist xs => .vlist (xs.map (normItem vocab))
        | v => normItem vocab v

/-!
## Codelist registry (`src/src/codelist_registry.py`)

`CODELIST_REGISTRY` is built once from
`src/codelists/napMetadataRegister.xml`, a static reference document
that is not part of the sources; the registry therefore appears here
as an explicit parameter `reg` of `resolve_codelist_value`
(class identifier → display name → item identifier).
-/

/-- A codelist registry: class identifier → (display name → item id). -/
def Registry : Type := List (String × List (String × String))

/-- The class identifier extracted from a codeList reference:
`codeList_url.split("#")[-1]`. -/
def classOf (codeList_url : String) : String :=
  (((pySplitOn codeList_url "#").getLast?)).getD ""

/-- The lookup token extracted from a display text:
`display_text.split(";")[0].strip()`. -/
def tokenOf (display_text : String) : String :=
  pyStrip (((pySplitOn display_text ";").head?).getD "")

/-- `resolve_codelist_value` (`src/src/codelist_registry.py`). -/
def resolve_codelist_value (reg : Registry) (codeList_url display_text : String) :
    Option String :=
  if display_text = "" ∨ codeList_url = "" then none
  else if !hasSubstr codeList_url "#" then none
  else
    match pyDictGet reg (classOf codeList_url) with
    | none => none
    | some value_map =>
      if value_map.isEmpty then none
      else pyDictGet value_map (tokenOf display_text)

/-!
## Path resolver (`get_value` in `src/src/xml_builder.py`)
-/

/-- One traversal step of `get_value`: list values require an integer
index (Python semantics, negative wraparound included); any other
value is subscripted with the string segment, which only dictionaries
survive (`KeyError`/`TypeError` are both caught by the source). -/
def getStep (v : Val) (part : String) : Option Val :=
  match v with
  | .vlist xs => (pyParseInt part).bind (pyListGet xs)
  | .vdict ps => pyDictGet ps part
  | _ => none

/-- Explicit found/not-found form of the traversal loop. -/
def resolvePathOpt : Val → List String → Option Val
  | v, [] => some v
  | v, part :: rest =>
    match getStep v part with
    | none => none
    | some v2 => resolvePathOpt v2 rest

/-- The traversal loop of `get_value`, threading the default. -/
def getPath : Val → List String → Val → Val
  | v, [], _ => v
  | v, part :: rest, d =>
    match getStep v part with
    | none => d
    | some v2 => getPath v2 rest d

/-- `get_value` (`src/src/xml_builder.py`): extract a nested value by a
dot-separated path; `none`/empty source is falsy and yields the
default immediately. -/
def get_value (record : Val) (source : Option String) (default : Val) : Val :=
  match source with
  | none => default
  | some s => if s = "" then default else getPath record (pySplitOn s ".") default

/-!
## Date and spatial-code normalizers (`src/src/xml_builder.py`)
-/

/-- Days per month, for the `datetime.fromisoformat` model. -/
def daysInMonth (y m : Nat) : Nat :=
  if m = 2 then
    if y % 4 = 0 ∧ (y % 100 ≠ 0 ∨ y % 400 = 0) then 29 else 28
  else if m = 4 ∨ m = 6 ∨ m = 9 ∨ m = 11 then 30
  else 31

/-- Two decimal digits starting at a char pair. -/
def twoDigits : List Char → Option Nat
  | a :: b :: _ => if a.isDigit ∧ b.isDigit then some (natOfDigits [a, b]) else none
  | _ => none

/-- Validate an optional trailing UTC offset `±HH:MM` of an ISO time. -/
def validOffset (cs : List Char) : Bool :=
  match cs with
  | [] => true
  | c :: rest =>
    if c = Char.ofNat 43 ∨ c = Char.ofNat 45 then
      match rest with
      | h1 :: h2 :: col :: m1 :: m2 :: [] =>
        h1.isDigit ∧ h2.isDigit ∧ col = Char.ofNat 58 ∧ m1.isDigit ∧ m2.isDigit
          ∧ natOfDigits [h1, h2] < 24 ∧ natOfDigits [m1, m2] < 60
      | _ => false
    else false

/-- Validate the optional sub-second / offset tail of an ISO time. -/
def validTimeTail (cs : List Char) : Bool :=
  match cs with
  | [] => true
  | c :: rest =>
    if c = Char.ofNat 46 then
      -- fractional seconds: 1 to 6 digits (then optionally an offset)
      let digits := rest.takeWhile Char.isDigit
      let after := rest.dropWhile Char.isDigit
      decide (1 ≤ digits.length) ∧ decide (digits.length ≤ 6) ∧ validOffset after
    else validOffset cs

/-- Validate an ISO time `HH[:MM[:SS]]` plus optional tail. -/
def validTime (cs : List Char) : Bool :=
  match cs with
  | h1 :: h2 :: rest =>
    if h1.isDigit ∧ h2.isDigit ∧ natOfDigits [h1, h2] < 24 then
      match rest with
      | [] => true
      | col :: m1 :: m2 :: rest2 =>
        if col = Char.ofNat 58 ∧ m1.isDigit ∧ m2.isDigit ∧ natOfDigits [m1, m2] < 60 then
          match rest2 with
          | [] => true
          | col2 :: s1 :: s2 :: rest3 =>
            if col2 = Char.ofNat 58 ∧ s1.isDigit ∧ s2.isDigit
                ∧ natOfDigits [s1, s2] < 60 then
              validTimeTail rest3
            else validTimeTail (col2 :: s1 :: s2 :: rest3)
          | _ => validTimeTail rest2
        else validTimeTail (col :: m1 :: m2 :: rest2)
      | _ => validTimeTail rest
    else false
  | _ => false

/-- Model of `datetime.fromisoformat(s).date().isoformat()`: on a
valid `YYYY-MM-DD[<sep>time]` string, the date prefix; otherwise
`none` (the exception path).  Exotic accepted spellings (week dates,
basic format) that the harvested data never produces are treated as
invalid. -/
def fromIsoDate (s : String) : Option String :=
  match s.toList with
  | y1 :: y2 :: y3 :: y4 :: d1 :: m1 :: m2 :: d2 :: dd1 :: dd2 :: rest =>
    if y1.isDigit ∧ y2.isDigit ∧ y3.isDigit ∧ y4.isDigit
        ∧ d1 = Char.ofNat 45 ∧ d2 = Char.ofNat 45
        ∧ m1.isDigit ∧ m2.isDigit ∧ dd1.isDigit ∧ dd2.isDigit then
      let y := natOfDigits [y1, y2, y3, y4]
      let m := natOfDigits [m1, m2]
      let d := natOfDigits [dd1, dd2]
      if 1 ≤ m ∧ m ≤ 12 ∧ 1 ≤ d ∧ d ≤ daysInMonth y m then
        match rest with
        | [] => some (String.mk (s.toList.take 10))
        | sep :: time =>
          if (sep = Char.ofNat 84 ∨ sep = Char.ofNat 32) ∧ validTime time then
            some (String.mk (s.toList.take 10))
          else none
      else none
    else none
  | _ => none

/-- `normalize_date` (`src/src/xml_builder.py`): falsy values give
`""`; a parseable ISO datetime string (after `Z` → `+00:00`) is
truncated to its date; everything else — including non-string truthy
values, whose `.replace` raises inside the `try` — returns the
original value. -/
def normalize_date (value : Val) : Val :=
  if !pyTruthy value then .vstr ""
  else
    match value with
    | .vstr s =>
      match fromIsoDate (pyReplace s "Z" "+00:00") with
      | some d => .vstr d
      | none => value
    | _ => value

/-- `normalize_code` (`src/src/xml_builder.py`): falsy values give
`""`; `EPSG-`/`SR-ORG-` prefixes are rewritten with a colon; any
failure (e.g. non-string truthy values) returns the original value. -/
def normalize_code (value : Val) : Val :=
  if !pyTruthy value then .vstr ""
  else
    match value with
    | .vstr s =>
      if pyStartsWith s "EPSG" then .vstr (pyReplace s "EPSG-" "EPSG:")
      else if pyStartsWith s "SR-ORG" then .vstr (pyReplace s "SR-ORG-" "SR-ORG:")
      else value
    | _ => value

/-!
## Scalar injection (`set_text` in `src/src/xml_builder.py`)
-/

/-- The Clark name of `gco:nilReason`. -/
def nilReasonQ : String := resolve_tag "gco:nilReason"

/-- The Clark name of `gmd:LocalisedCharacterString`. -/
def locStrQ : String := resolve_tag "gmd:LocalisedCharacterString"

/-- The opposite-locale marker: `"#fra" if lang == "en" else "#eng"`. -/
def secondaryLocale (lang : String) : String :=
  if lang = "en" then "#fra" else "#eng"

/-- Loop body of `set_text` for one matched node at position `q`:
the codeList branch (resolution failure `continue`s, leaving the node
untouched), otherwise a plain text write; then the `gco:nilReason`
removal on the parent and the optional bilingual write into the first
`gmd:LocalisedCharacterString` descendant of the parent.  The source
assumes every matched node has a parent (it raises on a root match);
here a root match skips the parent-relative steps. -/
def processTextNode (reg : Registry) (lang : String) (value secondary : Val)
    (tree : XNode) (q : List Nat) : XNode :=
  match getNode tree q with
  | none => tree
  | some node =>
    let codeList_url := (node.attrs.lookup "codeList").getD ""
    let t1opt : Option XNode :=
      if codeList_url ≠ "" then
        match resolve_codelist_value reg codeList_url (pyStr value) with
        | none => none  -- keep template default value, continue
        | some resolved =>
          some (modifyAt (fun n => setAttrF "codeListValue" resolved (setTextF (pyStr value) n)) tree q)
      else
        some (modifyAt (setTextF (pyStr value)) tree q)
    match t1opt with
    | none => tree
    | some t1 =>
      if q.isEmpty then t1
      else
        let t2 := modifyAt (popAttrF nilReasonQ) t1 q.dropLast
        if pyIsEmptyish secondary then t2
        else
          match getNode t2 q.dropLast with
          | none => t2
          | some parent =>
            match (findDesc parent locStrQ).head? with
            | none => t2
            | some f =>
              modifyAt (fun n => setTextF (pyStr secondary) (setAttrF "locale" (secondaryLocale lang) n))
                t2 (q.dropLast ++ f)

/-- The two conditional rewrites at the top of `set_text`: date
normalization when the XPath contains `/gco:Date`, spatial-code
normalization when it contains `/gmd:code` (substring tests on the
XPath string, as in the source). -/
def dateCodeAdjust (xpath : String) (value : Val) : Val :=
  let v1 := if hasSubstr xpath "/gco:Date" then normalize_date value else value
  if hasSubstr xpath "/gmd:code" then normalize_code v1 else v1

/-- `set_text` (`src/src/xml_builder.py`): skip empty values, apply
the date / spatial-code rewrites when the XPath string contains the
corresponding marker substring, then process every matched node. -/
def set_text (reg : Registry) (lang : String) (tree : XNode) (xpath : String)
    (value secondary : Val) : XNode :=
  if pyIsEmptyish value then tree
  else
    (xpathEval tree xpath).foldl
      (processTextNode reg lang (dateCodeAdjust xpath value) secondary) tree

/-!
## Repeated injection (`set_repeated_values` in `src/src/xml_builder.py`)
-/

/-- The `fr_list` alignment of `set_repeated_values`: a list is used
as is, a truthy scalar is replicated `len(values)` times, a falsy one
becomes `len(values)` `None`s; `len` raises (`none`) on unsized
values. -/
def frListOf (secondary_values values : Val) : Option (List Val) :=
  match secondary_values with
  | .vlist xs => some xs
  | s =>
    if pyTruthy s then (pyLen values).map (fun n => List.replicate n s)
    else (pyLen values).map (fun n => List.replicate n Val.vnull)

/-- Per-item clone of the placeholder: deep-copy the template, set the
first `value_xpath` descendant's text (clearing `gco:nilReason` on its
parent), and, for a truthy aligned secondary value, write text and
locale into the first `gmd:LocalisedCharacterString` descendant. -/
def instantiate (lang : String) (template : XNode) (value_qname : String)
    (v frv : Val) : XNode :=
  let e1 :=
    match (findDesc template value_qname).head? with
    | none => template
    | some p =>
      let e0 := modifyAt (popAttrF nilReasonQ) template p.dropLast
      modifyAt (setTextF (pyStr v)) e0 p
  if pyTruthy frv then
    match (findDesc e1 locStrQ).head? with
    | none => e1
    | some p =>
      modifyAt (fun n => setTextF (pyStr frv) (setAttrF "locale" (secondaryLocale lang) n)) e1 p
  else e1

/-- The `for i, value in enumerate(values)` loop of
`set_repeated_values`, acting on the container's child list after the
placeholders were removed: each clone is inserted at
`insert_index + i`. -/
def srvFold (lang : String) (template : XNode) (value_qname : String)
    (frList : List Val) (insert_index : Nat) :
    List Val → Nat → List XNode → List XNode
  | [], _, cs => cs
  | v :: vs, i, cs =>
    srvFold lang template value_qname frList insert_index vs (i + 1)
      (pyInsert cs (insert_index + i) (instantiate lang template value_qname v (frList.getD i .vnull)))

/-- `set_repeated_values` (`src/src/xml_builder.py`).  Placeholder
discovery (`findall` over direct children), template/index capture,
placeholder removal and ordered insertion are expressed through the
container's child list; `none` models the uncaught `TypeError` when
`values` has no `len` or is not iterable. -/
def set_repeated_values (lang : String) (tree : XNode)
    (container_xpath repeat_tag value_xpath : String)
    (values secondary_values : Val) : Option XNode :=
  if !pyTruthy values then some tree
  else
    match (xpathEval tree container_xpath).head? with
    | none => some tree
    | some cpos =>
      match getNode tree cpos with
      | none => some tree
      | some container =>
        let repeat_qname := resolve_tag repeat_tag
        match container.children.filter (fun c => c.tag == repeat_qname) with
        | [] => some tree
        | template :: _ =>
          let insert_index := container.children.findIdx (fun c => c.tag == repeat_qname)
          let kept := container.children.filter (fun c => !(c.tag == repeat_qname))
          match frListOf secondary_values values with
          | none => none
          | some frList =>
            match pyIter values with
            | none => none
            | some items =>
              some (modifyAt
                (XNode.withChildren
                  (srvFold lang template (resolve_tag value_xpath) frList insert_index items 0 kept))
                tree cpos)

/-!
## Pruning and required fields (`src/src/xml_builder.py`)
-/

/-- `not (node.text and node.text.strip())`. -/
def textEmptyish (n : XNode) : Bool :=
  match n.text with
  | none => true
  | some s => s.trim = ""

/-- Remove the `i`-th child of the node at `q`. -/
def removeChildAt (t : XNode) (q : List Nat) (i : Nat) : XNode :=
  modifyAt (fun n => n.withChildren (n.children.eraseIdx i)) t q

/-- `clean_illegal_placeholders` (`src/src/xml_builder.py`): drop
`CI_Date` blocks whose `gco:Date` is empty and `gmd:topicCategory`
elements without a non-empty `gmd:MD_TopicCategoryCode`.  The source
iterates over the snapshot of matches while removing; positions whose
node was already detached are skipped here (such removals happen in
detached subtrees and are invisible in the output). -/
def clean_illegal_placeholders (tree : XNode) : XNode :=
  let t1 := (findDesc tree (resolve_tag "gco:Date")).foldl
    (fun t p =>
      match getNode t p with
      | none => t
      | some d =>
        if textEmptyish d then
          -- ci_date = date.getparent().getparent(), removed from its parent
          if 3 ≤ p.length then
            let cip := p.dropLast.dropLast
            removeChildAt t cip.dropLast ((cip.getLast?).getD 0)
          else t  -- the source raises when there is no such ancestor
        else t)
    tree
  (findDesc t1 (resolve_tag "gmd:topicCategory")).foldl
    (fun t p =>
      match getNode t p with
      | none => t
      | some tc =>
        let bad :=
          match (findDesc tc (resolve_tag "gmd:MD_TopicCategoryCode")).head? with
          | none => true
          | some cp =>
            match getNode tc cp with
            | none => true
            | some code => textEmptyish code
        if bad then
          if p.isEmpty then t  -- the source raises on a root match
          else removeChildAt t p.dropLast ((p.getLast?).getD 0)
        else t)
    t1

/-- Location steps of the forced record identifier leaf. -/
def fidTags : List String :=
  [resolve_tag "gmd:fileIdentifier", resolve_tag "gco:CharacterString"]

/-- Location steps of the forced date stamp leaf. -/
def dsTags : List String :=
  [resolve_tag "gmd:dateStamp", resolve_tag "gco:DateTime"]

/-- First half of `enforce_required_fields`: write `str(record_id)`
into the first `gmd:fileIdentifier/gco:CharacterString` match. -/
def enforce_fid (tree : XNode) (record_id : String) : XNode :=
  match (relFind tree fidTags).head? with
  | none => tree
  | some p => modifyAt (setTextF record_id) tree p

/-- `enforce_required_fields` (`src/src/xml_builder.py`): force the
record identifier, then the generation timestamp
(`datetime.now().isoformat() + "Z"` — the clock reading is the `now`
parameter) into the first matching leaves. -/
def enforce_required_fields (tree : XNode) (record_id now : String) : XNode :=
  let t1 := enforce_fid tree record_id
  match (relFind t1 dsTags).head? with
  | none => t1
  | some q => modifyAt (setTextF (now ++ "Z")) t1 q

/-!
## The build loop (`build_xml` in `src/src/xml_builder.py`)
-/

/-- One entry of the mapping configuration consumed by `build_xml`
(the configuration itself is data outside the sources); absent keys
are `none`.  `repeatFlag` carries the Python value of the entry's
`"repeat"` key, tested only for truthiness. -/
structure MappingField where
  source : Option String
  source_fr : Option String
  controlled : Option String
  repeatFlag : Val
  xpath : Option String
  container_xpath : Option String
  repeat_tag : Option String
  value_xpath : Option String

/-- Truthiness of an optional string (`field.get(...)` results). -/
def truthyOptStr : Option String → Bool
  | some s => s ≠ ""
  | none => false

/-- The primary/secondary source-path swap of `build_xml` (§ the
`lang == "fr"` block): a French document prefers `source_fr` as
primary, with `source` as secondary. -/
def primarySecondary (lang : String) (fld : MappingField) :
    Option String × Option String :=
  if lang = "fr" then
    if truthyOptStr fld.source_fr then (fld.source_fr, fld.source)
    else (fld.source, none)
  else (fld.source, fld.source_fr)

/-- One iteration of the `for field in mapping` loop of `build_xml`:
resolve, normalize and inject a scalar or a repeat entry; `none`
models the exceptions that abort the build (missing `xpath` /
`container_xpath` / `repeat_tag` / `value_xpath` keys, or a
non-iterable repeat value). -/
def applyField (reg : Registry) (lang : String) (record : Val) (tree : XNode)
    (fld : MappingField) : Option XNode :=
  let ps := primarySecondary lang fld
  if !pyTruthy fld.repeatFlag then
    let value := normalize_controlled_value fld.controlled (get_value record ps.1 .vnull)
    let secondary_value :=
      if truthyOptStr ps.2 then
        normalize_controlled_value fld.controlled (get_value record ps.2 .vnull)
      else .vnull
    match fld.xpath with
    | none => none
    | some xp => some (set_text reg lang tree xp value secondary_value)
  else
    match fld.container_xpath with
    | none => none  -- "Repeat requires container_xpath"
    | some cx =>
      let values := normalize_controlled_value fld.controlled (get_value record ps.1 .vnull)
      let secondary_values :=
        if truthyOptStr ps.2 then
          normalize_controlled_value fld.controlled (get_value record ps.2 .vnull)
        else .vnull
      match fld.repeat_tag, fld.value_xpath with
      | some rt, some vx => set_repeated_values lang tree cx rt vx values secondary_values
      | _, _ => none

/-- The mapping loop; an exception in any entry aborts the build. -/
def applyMapping (reg : Registry) (lang : String) (record : Val)
    (mapping : List MappingField) (tree : XNode) : Option XNode :=
  match mapping with
  | [] => some tree
  | fld :: rest =>
    match applyField reg lang record tree fld with
    | none => none
    | some t2 => applyMapping reg lang record rest t2

/-- Language detection of `build_xml` (default template path branch):
`edhProfile.language` with default `"en"`, stripped, lowered, mapped
to `"fr"` on a `fr` prefix. -/
def langOf (record : Val) : String :=
  let l := get_value record (some "edhProfile.language") (.vstr "en")
  if pyStartsWith (pyLower (pyStrip (pyStr l))) "fr" then "fr" else "en"

/-- `build_xml` (`src/src/xml_builder.py`).  Template selection and
parsing are file I/O (`load_base_xml`); the loaded skeleton enters as
`base_tree`, and the generation clock reading as `now`. -/
def build_xml (reg : Registry) (record : Val) (record_id : String)
    (mapping : List MappingField) (base_tree : XNode) (now : String) : Option XNode :=
  let lang := langOf record
  match applyMapping reg lang record mapping base_tree with
  | none => none
  | some t => some (enforce_required_fields (clean_illegal_placeholders t) record_id now)

/-!
## Infrastructure lemmas about positions and functional update
-/

@[simp] theorem setTextF_text (s : String) (n : XNode) : (setTextF s n).text = some s := by
  cases n; rfl

@[simp] theorem setTextF_children (s : String) (n : XNode) :
    (setTextF s n).children = n.children := by
  cases n; rfl

@[simp] theorem setTextF_attrs (s : String) (n : XNode) : (setTextF s n).attrs = n.attrs := by
  cases n; rfl

@[simp] theorem setTextF_tag (s : String) (n : XNode) : (setTextF s n).tag = n.tag := by
  cases n; rfl

@[simp] theorem setAttrF_text (k v : String) (n : XNode) : (setAttrF k v n).text = n.text := by
  cases n; rfl

@[simp] theorem setAttrF_children (k v : String) (n : XNode) :
    (setAttrF k v n).children = n.children := by
  cases n; rfl

@[simp] theorem setAttrF_attrs (k v : String) (n : XNode) :
    (setAttrF k v n).attrs = attrSet k v n.attrs := by
  cases n; rfl

@[simp] theorem popAttrF_children (k : String) (n : XNode) :
    (popAttrF k n).children = n.children := by
  cases n; rfl

@[simp] theorem popAttrF_text (k : String) (n : XNode) : (popAttrF k n).text = n.text := by
  cases n; rfl

@[simp] theorem withChildren_children (cs : List XNode) (n : XNode) :
    (n.withChildren cs).children = cs := by
  cases n; rfl

theorem attrSet_lookup (k v : String) (l : List (String × String)) :
    (attrSet k v l).lookup k = some v := by
  induction l with
  | nil => simp [attrSet, List.lookup]
  | cons hd tl ih =>
    cases hd with
    | mk a b =>
      by_cases h : a = k
      · subst h
        simp [attrSet, List.lookup]
      · have hab : (a == k) = false := by simp [h]
        have hka : (k == a) = false := by
          simp only [beq_eq_false_iff_ne, ne_eq]
          exact fun hkk => h hkk.symm
        simp [attrSet, hab, List.lookup, hka, ih]

/-- `getNode` decomposes along path concatenation. -/
theorem getNode_append (t : XNode) (p q : List Nat) :
    getNode t (p ++ q) = (getNode t p).bind (fun n => getNode n q) := by
  induction p generalizing t with
  | nil => simp [getNode]
  | cons i p ih =>
    cases t with
    | elem tg a x cs =>
      simp only [List.cons_append, getNode]
      cases hg : cs[i]? with
      | none => rfl
      | some c => exact ih c

/-- `getNode` into a child under the cons constructor. -/
theorem getNode_cons (n : XNode) (i : Nat) (q : List Nat) :
    getNode n (i :: q) = n.children[i]?.bind (fun c => getNode c q) := by
  cases n with
  | elem tg a x cs =>
    simp only [getNode, XNode.children]
    cases hg : cs[i]? <;> rfl

/-- The node at the updated position is the image under `f` (both
sides are `none` when the position does not exist). -/
theorem getNode_modifyAt_self (f : XNode → XNode) (t : XNode) (p : List Nat) :
    getNode (modifyAt f t p) p = (getNode t p).map f := by
  induction p generalizing t with
  | nil => simp [getNode, modifyAt]
  | cons i p ih =>
    cases t with
    | elem tg a x cs =>
      simp only [modifyAt, getNode]
      cases hg : cs[i]? with
      | none => simp [getNode, hg]
      | some c =>
        have hlt : i < cs.length := by
          by_contra hge
          simp [List.getElem?_eq_none (Nat.le_of_not_lt hge)] at hg
        simp [getNode_cons, XNode.children, List.getElem?_set_self hlt, ih c]

/-- Updating with a children-preserving `f` at `p` does not disturb
reads strictly below `p`. -/
theorem getNode_modifyAt_below (f : XNode → XNode)
    (hf : ∀ n, (f n).children = n.children) (t : XNode) (p : List Nat)
    (i : Nat) (q : List Nat) :
    getNode (modifyAt f t p) (p ++ i :: q) = getNode t (p ++ i :: q) := by
  rw [getNode_append, getNode_append, getNode_modifyAt_self]
  cases getNode t p with
  | none => rfl
  | some n => simp [getNode_cons, hf]

/-- A text write at `q` does not change the text read at a different
position `p` (it changes only `q`\x27s own text and nothing else a
`textAt` read can see). -/
theorem textAt_modifyAt_setTextF_ne (s : String) (t : XNode) (p q : List Nat)
    (h : p ≠ q) : textAt (modifyAt (setTextF s) t q) p = textAt t p := by
  induction q generalizing t p with
  | nil =>
    cases p with
    | nil => exact absurd rfl h
    | cons i p =>
      unfold textAt
      rw [show (i :: p) = [] ++ i :: p from rfl,
        getNode_modifyAt_below (setTextF s) (setTextF_children s) t []]
  | cons j q ih =>
    cases t with
    | elem tg a x cs =>
      cases p with
      | nil =>
        simp only [textAt, modifyAt, getNode]
        cases hg : cs[j]? <;> rfl
      | cons i p =>
        simp only [textAt, modifyAt]
        cases hg : cs[j]? with
        | none => rfl
        | some c =>
          by_cases hij : i = j
          · subst hij
            have hlt : i < cs.length := by
              by_contra hge
              simp [List.getElem?_eq_none (Nat.le_of_not_lt hge)] at hg
            have hpq : p ≠ q := fun hcontra => h (by rw [hcontra])
            have hrec := ih c p hpq
            simp only [textAt] at hrec
            simp [getNode_cons, XNode.children, List.getElem?_set_self hlt, hg, hrec]
          · simp [getNode_cons, XNode.children, List.getElem?_set_ne (fun hcc => hij hcc.symm), hg]

/-!
## Claim C5 — the path resolver is total and defaults on failure
-/

/-- The traversal loop is the `getD`-image of the explicit
found/not-found resolver. -/
theorem getPath_eq_resolvePathOpt (v : Val) (parts : List String) (d : Val) :
    getPath v parts d = (resolvePathOpt v parts).getD d := by
  induction parts generalizing v with
  | nil => rfl
  | cons pt ps ih =>
    simp only [getPath, resolvePathOpt]
    cases getStep v pt with
    | none => rfl
    | some v2 => exact ih v2

/-- C5: `get_value(record, path, default)` never raises (it is a total
function of its inputs); an absent or empty path returns the default
immediately; and for any non-empty path the result is the resolved
value when every traversal step succeeds and the default otherwise —
every failure (missing key, bad index, `None`/non-indexable value
mid-path, captured by `getStep` returning `none`) falls back to
`default`. -/
theorem get_value_never_raises (record d : Val) :
    get_value record none d = d ∧
    get_value record (some "") d = d ∧
    ∀ s, s ≠ "" →
      get_value record (some s) d = (resolvePathOpt record (pySplitOn s ".")).getD d := by
  refine ⟨rfl, by simp [get_value], fun s hs => ?_⟩
  simp [get_value, hs, getPath_eq_resolvePathOpt]

/-- Witness for C5 at a concrete record and failing path. -/
theorem get_value_never_raises_witness :
    get_value (.vdict [("a", .vlist [.vstr "x"])]) (some "a.5.z") (.vstr "D") = .vstr "D" :=
  (get_value_never_raises (.vdict [("a", .vlist [.vstr "x"])]) (.vstr "D")).2.2
    "a.5.z" (by decide)

/-!
## Claim C6 — list indexing follows Python semantics (negative
indices wrap around, so the claim's "fails on every negative integer"
is refuted)
-/

/-- C6 counterexample: on a two-element sequence the segment `-1`
parses to a negative integer yet resolves to the *last* element
instead of failing soft to the default. -/
theorem get_value_negative_index_cex :
    get_value (.vlist [.vstr "a", .vstr "b"]) (some "-1") (.vstr "DEF") = .vstr "b" ∧
    Val.vstr "b" ≠ Val.vstr "DEF" :=
  ⟨rfl, fun hcontra => absurd (Val.vstr.inj hcontra) (by decide)⟩

/-- C6 (amended): on a sequence of length `L` a segment resolves
successfully iff it parses as an integer `i` with `-L ≤ i < L`; a
non-negative `i` addresses position `i`, a negative `i` addresses
position `L + i` (Python wraparound), and parse failures or indices
outside `[-L, L)` fail soft to the default. -/
theorem get_value_python_index_semantics (xs : List Val) (pt : String)
    (ps : List String) (d : Val) :
    (pyParseInt pt = none → getPath (.vlist xs) (pt :: ps) d = d) ∧
    ∀ i, pyParseInt pt = some i →
      (((xs.length : Int) ≤ i ∨ i < -(xs.length : Int)) →
        getPath (.vlist xs) (pt :: ps) d = d) ∧
      (0 ≤ i → i < (xs.length : Int) →
        ∃ v, xs.get? i.toNat = some v ∧
          getPath (.vlist xs) (pt :: ps) d = getPath v ps d) ∧
      (i < 0 → -(xs.length : Int) ≤ i →
        ∃ v, xs.get? ((xs.length : Int) + i).toNat = some v ∧
          getPath (.vlist xs) (pt :: ps) d = getPath v ps d) := by
  constructor
  · intro hparse
    simp [getPath, getStep, hparse]
  · intro i hparse
    refine ⟨?_, ?_, ?_⟩
    · rintro (hge | hlt)
      · have hnone : pyListGet xs i = none := by
          rcases Int.le_or_lt 0 i with h0 | h0
          · have : xs.length ≤ i.toNat := by omega
            simp [pyListGet, h0, List.get?_eq_getElem?, List.getElem?_eq_none this]
          · omega
        simp [getPath, getStep, hparse, hnone]
      · have hnone : pyListGet xs i = none := by
          have h0 : ¬ (0 : Int) ≤ i := by omega
          have h1 : ¬ (0 : Int) ≤ (xs.length : Int) + i := by omega
          simp [pyListGet, h0, h1]
        simp [getPath, getStep, hparse, hnone]
    · intro h0 hlt
      have hnat : i.toNat < xs.length := by omega
      refine ⟨xs.get ⟨i.toNat, hnat⟩, ?_, ?_⟩
      · simp [List.get?_eq_getElem?, List.getElem?_eq_getElem hnat]
      · have hsome : pyListGet xs i = some (xs.get ⟨i.toNat, hnat⟩) := by
          simp [pyListGet, h0, List.get?_eq_getElem?, List.getElem?_eq_getElem hnat]
        simp [getPath, getStep, hparse, hsome]
    · intro hneg hge
      have hnat : ((xs.length : Int) + i).toNat < xs.length := by omega
      refine ⟨xs.get ⟨((xs.length : Int) + i).toNat, hnat⟩, ?_, ?_⟩
      · simp [List.get?_eq_getElem?, List.getElem?_eq_getElem hnat]
      · have h0 : ¬ (0 : Int) ≤ i := by omega
        have h1 : (0 : Int) ≤ (xs.length : Int) + i := by omega
        have hsome : pyListGet xs i
            = some (xs.get ⟨((xs.length : Int) + i).toNat, hnat⟩) := by
          simp [pyListGet, h0, h1, List.get?_eq_getElem?, List.getElem?_eq_getElem hnat]
        simp [getPath, getStep, hparse, hsome]

/-- Witness for the amended C6: `-1` on a two-element list addresses
position `2 + (-1) = 1`. -/
theorem get_value_python_index_semantics_witness :
    ∃ v, [Val.vstr "a", Val.vstr "b"].get? ((([Val.vstr "a", Val.vstr "b"].length : Int) + (-1)).toNat)
        = some v ∧
      getPath (.vlist [Val.vstr "a", Val.vstr "b"]) (["-1"]) (.vstr "DEF")
        = getPath v [] (.vstr "DEF") :=
  ((get_value_python_index_semantics [Val.vstr "a", Val.vstr "b"] "-1" [] (.vstr "DEF")).2
    (-1) (by decide)).2.2 (by decide) (by decide)

/-!
## Claim C8 — codelist resolution
-/

/-- C8: `resolve_codelist_value` returns `none` on empty inputs and on
references without `#`; otherwise it keys the registry by the fragment
after `#` (`classOf`), takes the trimmed text before the first `;`
(`tokenOf`), performs the exact, case-sensitive lookup, and returns
`none` exactly when the class is missing or the token has no match. -/
theorem resolve_codelist_value_spec (reg : Registry) (url txt : String) :
    ((url = "" ∨ txt = "") → resolve_codelist_value reg url txt = none) ∧
    (hasSubstr url "#" = false → resolve_codelist_value reg url txt = none) ∧
    (url ≠ "" → txt ≠ "" → hasSubstr url "#" = true →
      resolve_codelist_value reg url txt
        = (pyDictGet reg (classOf url)).bind (fun m => pyDictGet m (tokenOf txt)) ∧
      (resolve_codelist_value reg url txt = none ↔
        pyDictGet reg (classOf url) = none ∨
        ∃ m, pyDictGet reg (classOf url) = some m ∧ pyDictGet m (tokenOf txt) = none)) := by
  refine ⟨?_, ?_, ?_⟩
  · rintro (h | h) <;> simp [resolve_codelist_value, h]
  · intro h
    by_cases hu : url = ""
    · simp [resolve_codelist_value, hu]
    · by_cases ht : txt = ""
      · simp [resolve_codelist_value, ht]
      · simp [resolve_codelist_value, hu, ht, h]
  · intro hu ht hh
    have hbody : resolve_codelist_value reg url txt
        = (pyDictGet reg (classOf url)).bind (fun m => pyDictGet m (tokenOf txt)) := by
      simp only [resolve_codelist_value, hu, ht, hh]
      simp only [or_self, if_false]
      cases hm : pyDictGet reg (classOf url) with
      | none => simp
      | some m =>
        cases m with
        | nil => simp [pyDictGet]
        | cons hd tl => simp
    refine ⟨hbody, ?_⟩
    rw [hbody]
    cases hm : pyDictGet reg (classOf url) with
    | none => simp
    | some m =>
      cases hv : pyDictGet m (tokenOf txt) with
      | none => simp [hv]
      | some r => simp [hv]

/-- Witness for C8 on a one-class registry. -/
theorem resolve_codelist_value_spec_witness :
    resolve_codelist_value [("IC_106", [("onGoing", "RI_602")])]
        "https://x#IC_106" "onGoing; enContinue"
      = (pyDictGet [("IC_106", [("onGoing", "RI_602")])]
          (classOf "https://x#IC_106")).bind
        (fun m => pyDictGet m (tokenOf "onGoing; enContinue")) :=
  ((resolve_codelist_value_spec [("IC_106", [("onGoing", "RI_602")])]
      "https://x#IC_106" "onGoing; enContinue").2.2
    (by decide) (by decide) (by decide)).1

/-!
## Claim C7 — controlled-vocabulary normalization
-/

/-- A value produced by `pyDictGet` is one of the dict's values. -/
theorem pyDictGet_mem {α : Type} (ps : List (String × α)) (k : String) (v : α)
    (h : pyDictGet ps k = some v) : v ∈ ps.map Prod.snd := by
  induction ps with
  | nil => simp [pyDictGet] at h
  | cons hd tl ih =>
    simp only [pyDictGet] at h
    cases hrec : pyDictGet tl k with
    | some r =>
      rw [hrec] at h
      injection h with h2
      subst h2
      exact List.mem_cons_of_mem _ (ih hrec)
    | none =>
      rw [hrec] at h
      by_cases hk : (hd.1 == k) = true
      · rw [if_pos hk] at h
        injection h with h2
        subst h2
        exact List.mem_cons_self _ _
      · rw [if_neg hk] at h
        cases h

/-- Key normalization commutes with the per-field lookup: looking a
field up in `NORMALIZED_VOCAB` yields the key-normalized image of the
raw table. -/
theorem pyDictGet_normalize_vocab (vocab : List (String × List (String × String)))
    (f : String) :
    pyDictGet (_normalize_vocab vocab) f
      = (pyDictGet vocab f).map
          (fun m0 => m0.map (fun kv => (pyLower (pyStrip kv.1), kv.2))) := by
  induction vocab with
  | nil => rfl
  | cons hd tl ih =>
    simp only [_normalize_vocab, List.map_cons] at *
    simp only [pyDictGet, ih]
    cases pyDictGet tl f with
    | some m0 => rfl
    | none =>
      by_cases hk : (hd.1 == f) = true
      · simp [hk]
      · simp [hk]

/-- Every canonical value in the static vocabulary table is a
non-empty string (checked by evaluation over the full table). -/
theorem controlled_vocab_values_nonempty :
    (CONTROLLED_VOCAB.all (fun fm => fm.2.all (fun kv => !(kv.2 == "")))) = true := by
  decide

/-- Every canonical value reachable through `NORMALIZED_VOCAB` is
non-empty, hence truthy. -/
theorem vocab_entry_nonempty (f : String) (m : List (String × String))
    (hm : pyDictGet NORMALIZED_VOCAB f = some m) (k v : String)
    (hv : pyDictGet m k = some v) : v ≠ "" := by
  have hmap := pyDictGet_normalize_vocab CONTROLLED_VOCAB f
  rw [show NORMALIZED_VOCAB = _normalize_vocab CONTROLLED_VOCAB from rfl, hmap] at hm
  cases h0 : pyDictGet CONTROLLED_VOCAB f with
  | none => rw [h0] at hm; cases hm
  | some m0 =>
    rw [h0] at hm
    injection hm with hm2
    subst hm2
    have hv2 := pyDictGet_mem _ _ _ hv
    have hsnd : ((m0.map (fun kv => (pyLower (pyStrip kv.1), kv.2))).map Prod.snd)
        = m0.map Prod.snd := by
      simp [List.map_map, Function.comp]
    rw [hsnd] at hv2
    have hm0 := pyDictGet_mem _ _ _ h0
    have hall := controlled_vocab_values_nonempty
    rw [List.all_eq_true] at hall
    obtain ⟨fm, hfm, hfm2⟩ := List.mem_map.mp hm0
    have hfield := hall fm hfm
    rw [List.all_eq_true] at hfield
    obtain ⟨kv, hkv, hkv2⟩ := List.mem_map.mp hv2
    have h3 := hfield kv (by rw [hfm2]; exact hkv)
    intro hcontra
    rw [hkv2, hcontra] at h3
    simp at h3

/-- C7: `normalize_controlled_value` (a) returns an empty value of
matching shape on an absent raw value, (b) returns the raw value
unchanged when the field key has no vocabulary, (c) maps a list input
element-wise to a list of the same length, (d) maps a scalar input to
a scalar, (e) performs the per-item lookup case- and
whitespace-insensitively, and (f) on a hit substitutes the canonical
value while a miss passes the original item through unchanged. -/
theorem normalize_controlled_value_spec (field : Option String) (raw : Val) :
    (pyIsEmptyish raw = true →
      normalize_controlled_value field raw
        = (match raw with | .vlist _ => .vlist [] | _ => .vstr "")) ∧
    (pyIsEmptyish raw = false →
      field.bind (pyDictGet NORMALIZED_VOCAB) = none →
      normalize_controlled_value field raw = raw) ∧
    (∀ m xs, pyIsEmptyish raw = false →
      field.bind (pyDictGet NORMALIZED_VOCAB) = some m → m ≠ [] →
      raw = .vlist xs →
      normalize_controlled_value field raw = .vlist (xs.map (normItem m)) ∧
      (xs.map (normItem m)).length = xs.length) ∧
    (∀ m, pyIsEmptyish raw = false →
      field.bind (pyDictGet NORMALIZED_VOCAB) = some m → m ≠ [] →
      (∀ xs, raw ≠ .vlist xs) →
      normalize_controlled_value field raw = normItem m raw) ∧
    (∀ m : List (String × String), ∀ item1 item2 : Val,
      pyLower (pyStrip (pyStr item1)) = pyLower (pyStrip (pyStr item2)) →
      pyDictGet m (pyLower (pyStrip (pyStr item1)))
        = pyDictGet m (pyLower (pyStrip (pyStr item2)))) ∧
    (∀ f0 m item, pyDictGet NORMALIZED_VOCAB f0 = some m →
      (∀ v, pyDictGet m (pyLower (pyStrip (pyStr item))) = some v →
        normItem m item = .vstr v) ∧
      (pyDictGet m (pyLower (pyStrip (pyStr item))) = none →
        normItem m item = item)) := by
  refine ⟨?_, ?_, ?_, ?_, ?_, ?_⟩
  · intro h
    cases raw <;> simp_all [normalize_controlled_value, pyIsEmptyish]
  · intro h hn
    simp [normalize_controlled_value, h, hn]
  · intro m xs h hm hne hraw
    subst hraw
    have hie : m.isEmpty = false := by
      cases m with
      | nil => exact absurd rfl hne
      | cons a b => rfl
    constructor
    · simp [normalize_controlled_value, h, hm, hie]
    · simp
  · intro m h hm hne hnl
    have hie : m.isEmpty = false := by
      cases m with
      | nil => exact absurd rfl hne
      | cons a b => rfl
    cases raw with
    | vlist xs => exact absurd rfl (hnl xs)
    | vnull => simp_all [normalize_controlled_value, pyIsEmptyish]
    | vbool b => simp [normalize_controlled_value, h, hm, hie]
    | vint n => simp [normalize_controlled_value, h, hm, hie]
    | vstr s => simp [normalize_controlled_value, h, hm, hie]
    | vdict ps => simp [normalize_controlled_value, h, hm, hie]
  · intro m item1 item2 h
    rw [h]
  · intro f0 m item hmfield
    constructor
    · intro v hv
      have hnonempty := vocab_entry_nonempty f0 m hmfield _ v hv
      have hne : (v == "") = false := by simp [hnonempty]
      simp [normItem, hv, hne]
    · intro hv
      simp [normItem, hv]

/-- Witness for C7: an absent list value normalizes to the empty
list. -/
theorem normalize_controlled_value_spec_witness :
    normalize_controlled_value (some "status") (.vlist []) = .vlist [] :=
  (normalize_controlled_value_spec (some "status") (.vlist [])).1 rfl

/-!
## Claims C2 / C10 — the per-node behaviour of `set_text`
-/

/-- A children-preserving update on a node's parent does not change
what is read at the node itself. -/
theorem getNode_modifyAt_parent (f : XNode → XNode)
    (hf : ∀ n, (f n).children = n.children) (t : XNode) (q : List Nat)
    (hq0 : q ≠ []) :
    getNode (modifyAt f t q.dropLast) q = getNode t q := by
  obtain ⟨p, l, hsplit⟩ : ∃ p l, q = p ++ [l] :=
    ⟨q.dropLast, q.getLast hq0, (List.dropLast_append_getLast hq0).symm⟩
  subst hsplit
  rw [List.dropLast_concat]
  exact getNode_modifyAt_below f hf t p l []

/-- C2: in `set_text`'s node loop, a leaf carrying a non-empty
`codeList` attribute is handled through the registry: when
`resolve_codelist_value` succeeds the leaf's text becomes the value
and its `codeListValue` attribute becomes the resolved identifier;
when it fails the whole step is the identity — text and
`codeListValue` keep the skeleton's values, no exception is possible,
and the remaining nodes and entries are processed from the unchanged
tree. -/
theorem set_text_codelist_branch (reg : Registry) (lang : String) (v : Val)
    (tree : XNode) (q : List Nat) (node : XNode) (url : String)
    (hv : pyIsEmptyish v = false) (hq0 : q ≠ [])
    (hnode : getNode tree q = some node)
    (hurl : node.attrs.lookup "codeList" = some url) (hu : url ≠ "") :
    (∀ code, resolve_codelist_value reg url (pyStr v) = some code →
      textAt (processTextNode reg lang v .vnull tree q) q = some (pyStr v) ∧
      attrAt (processTextNode reg lang v .vnull tree q) q "codeListValue" = some code) ∧
    (resolve_codelist_value reg url (pyStr v) = none →
      ∀ (sec : Val) (rest : List (List Nat)),
        processTextNode reg lang v sec tree q = tree ∧
        (q :: rest).foldl (processTextNode reg lang v sec) tree
          = rest.foldl (processTextNode reg lang v sec) tree) := by
  have hqe : q.isEmpty = false := by
    cases q with
    | nil => exact absurd rfl hq0
    | cons a b => rfl
  constructor
  · intro code hcode
    have hstep : processTextNode reg lang v .vnull tree q
        = modifyAt (popAttrF nilReasonQ)
            (modifyAt (fun n => setAttrF "codeListValue" code (setTextF (pyStr v) n)) tree q)
            q.dropLast := by
      unfold processTextNode
      simp only [hnode, hurl, Option.getD_some]
      rw [if_pos hu, hcode]
      simp [hqe, pyIsEmptyish]
    rw [hstep]
    unfold textAt attrAt
    rw [getNode_modifyAt_parent _ (popAttrF_children _) _ _ hq0,
      getNode_modifyAt_self, hnode]
    constructor
    · simp
    · simp [attrSet_lookup]
  · intro hcode sec rest
    have hstep : processTextNode reg lang v sec tree q = tree := by
      unfold processTextNode
      simp only [hnode, hurl, Option.getD_some]
      rw [if_pos hu, hcode]
    exact ⟨hstep, by rw [List.foldl_cons, hstep]⟩

/-- Witness for C2 on a one-node tree and one-class registry, both
branches exercised. -/
theorem set_text_codelist_branch_witness :
    textAt (processTextNode [("IC_1", [("VAL", "RI_9")])] "en" (.vstr "VAL") .vnull
        (.elem "r" [] none [.elem "b" [("codeList", "u#IC_1"), ("codeListValue", "RI_0")]
          (some "tmpl") []]) [0]) [0] = some "VAL" :=
  (((set_text_codelist_branch [("IC_1", [("VAL", "RI_9")])] "en" (.vstr "VAL")
      (.elem "r" [] none [.elem "b" [("codeList", "u#IC_1"), ("codeListValue", "RI_0")]
        (some "tmpl") []]) [0]
      (.elem "b" [("codeList", "u#IC_1"), ("codeListValue", "RI_0")] (some "tmpl") [])
      "u#IC_1" rfl (by decide) rfl rfl (by decide)).1) "RI_9" rfl).1

/-- C10: for every scalar entry with a non-empty secondary value, the
node step writes the secondary text only into the first
already-existing `gmd:LocalisedCharacterString` descendant of the
target leaf's parent, setting that node's `locale` attribute to the
opposite-locale marker — both for plain leaves and for codeList
leaves whose registry resolution succeeded; when the parent has no
such descendant, or when a codeList resolution failure `continue`s
past the node, the step is identical to the build without the
secondary value: the text is silently dropped, no node is created,
and the rest of the tree (the primary leaf text included) is
untouched. -/
theorem set_text_secondary_frame (reg : Registry) (lang : String) (v s : Val)
    (tree : XNode) (q : List Nat) (node pnode : XNode)
    (hs : pyIsEmptyish s = false) (hq0 : q ≠ [])
    (hnode : getNode tree q = some node)
    (hpn : getNode (processTextNode reg lang v .vnull tree q) q.dropLast = some pnode) :
    (((node.attrs.lookup "codeList").getD "" = "" ∨
      (∃ code, resolve_codelist_value reg ((node.attrs.lookup "codeList").getD "")
        (pyStr v) = some code)) →
      (findDesc pnode locStrQ = [] →
        processTextNode reg lang v s tree q = processTextNode reg lang v .vnull tree q) ∧
      (∀ f, (findDesc pnode locStrQ).head? = some f →
        processTextNode reg lang v s tree q
          = modifyAt
              (fun n => setTextF (pyStr s) (setAttrF "locale" (secondaryLocale lang) n))
              (processTextNode reg lang v .vnull tree q) (q.dropLast ++ f))) ∧
    ((node.attrs.lookup "codeList").getD "" ≠ "" →
      resolve_codelist_value reg ((node.attrs.lookup "codeList").getD "") (pyStr v) = none →
      processTextNode reg lang v s tree q = processTextNode reg lang v .vnull tree q) := by
  have hqe : q.isEmpty = false := by
    cases q with
    | nil => exact absurd rfl hq0
    | cons a b => rfl
  -- the plain branch: no (non-empty) codeList attribute on the leaf
  have plainPair : (node.attrs.lookup "codeList").getD "" = "" →
      (findDesc pnode locStrQ = [] →
        processTextNode reg lang v s tree q = processTextNode reg lang v .vnull tree q) ∧
      (∀ f, (findDesc pnode locStrQ).head? = some f →
        processTextNode reg lang v s tree q
          = modifyAt
              (fun n => setTextF (pyStr s) (setAttrF "locale" (secondaryLocale lang) n))
              (processTextNode reg lang v .vnull tree q) (q.dropLast ++ f)) := by
    intro hcu
    have hbase : processTextNode reg lang v .vnull tree q
        = modifyAt (popAttrF nilReasonQ) (modifyAt (setTextF (pyStr v)) tree q) q.dropLast := by
      unfold processTextNode
      simp only [hnode, hcu]
      rw [if_neg (by simp)]
      simp [hqe, pyIsEmptyish]
    have hpn2 := hpn
    rw [hbase] at hpn2
    have hsec : processTextNode reg lang v s tree q
        = (match (findDesc pnode locStrQ).head? with
          | none =>
            modifyAt (popAttrF nilReasonQ) (modifyAt (setTextF (pyStr v)) tree q) q.dropLast
          | some f =>
            modifyAt (fun n => setTextF (pyStr s) (setAttrF "locale" (secondaryLocale lang) n))
              (modifyAt (popAttrF nilReasonQ) (modifyAt (setTextF (pyStr v)) tree q) q.dropLast)
              (q.dropLast ++ f)) := by
      unfold processTextNode
      simp only [hnode, hcu]
      rw [if_neg (by simp)]
      simp only [hqe, Bool.false_eq_true, if_false, hs, hpn2]
    constructor
    · intro hfd
      rw [hsec, hfd, hbase]
      rfl
    · intro f hf
      rw [hsec, hf, hbase]
  -- the codeList branch with successful resolution
  have succPair : (node.attrs.lookup "codeList").getD "" ≠ "" →
      ∀ code, resolve_codelist_value reg ((node.attrs.lookup "codeList").getD "")
        (pyStr v) = some code →
      (findDesc pnode locStrQ = [] →
        processTextNode reg lang v s tree q = processTextNode reg lang v .vnull tree q) ∧
      (∀ f, (findDesc pnode locStrQ).head? = some f →
        processTextNode reg lang v s tree q
          = modifyAt
              (fun n => setTextF (pyStr s) (setAttrF "locale" (secondaryLocale lang) n))
              (processTextNode reg lang v .vnull tree q) (q.dropLast ++ f)) := by
    intro hcu code hcode
    have hbase : processTextNode reg lang v .vnull tree q
        = modifyAt (popAttrF nilReasonQ)
            (modifyAt (fun n => setAttrF "codeListValue" code (setTextF (pyStr v) n)) tree q)
            q.dropLast := by
      unfold processTextNode
      simp only [hnode]
      rw [if_pos hcu, hcode]
      simp [hqe, pyIsEmptyish]
    have hpn2 := hpn
    rw [hbase] at hpn2
    have hsec : processTextNode reg lang v s tree q
        = (match (findDesc pnode locStrQ).head? with
          | none =>
            modifyAt (popAttrF nilReasonQ)
              (modifyAt (fun n => setAttrF "codeListValue" code (setTextF (pyStr v) n)) tree q)
              q.dropLast
          | some f =>
            modifyAt (fun n => setTextF (pyStr s) (setAttrF "locale" (secondaryLocale lang) n))
              (modifyAt (popAttrF nilReasonQ)
                (modifyAt (fun n => setAttrF "codeListValue" code (setTextF (pyStr v) n)) tree q)
                q.dropLast)
              (q.dropLast ++ f)) := by
      unfold processTextNode
      simp only [hnode]
      rw [if_pos hcu, hcode]
      simp only [hqe, Bool.false_eq_true, if_false, hs, hpn2]
    constructor
    · intro hfd
      rw [hsec, hfd, hbase]
      rfl
    · intro f hf
      rw [hsec, hf, hbase]
  constructor
  · rintro (hcu | ⟨code, hcode⟩)
    · exact plainPair hcu
    · by_cases hcu : (node.attrs.lookup "codeList").getD "" = ""
      · exact plainPair hcu
      · exact succPair hcu code hcode
  · intro hcu hfail
    have h1 : processTextNode reg lang v s tree q = tree := by
      unfold processTextNode
      simp only [hnode]
      rw [if_pos hcu, hfail]
    have h2 : processTextNode reg lang v .vnull tree q = tree := by
      unfold processTextNode
      simp only [hnode]
      rw [if_pos hcu, hfail]
    rw [h1, h2]

/-- Witness for C10, exercising the codeList-success case: after the
registry resolves, the secondary text lands in the sibling
`gmd:LocalisedCharacterString` with the `#fra` marker. -/
theorem set_text_secondary_frame_witness :
    processTextNode [("IC_1", [("VAL", "RI_9")])] "en" (.vstr "VAL") (.vstr "FR")
        (.elem "r" [] none [.elem "p" [] none
          [.elem "b" [("codeList", "u#IC_1")] (some "tmpl") [],
           .elem locStrQ [("locale", "#zzz")] (some "old") []]])
        [0, 0]
      = modifyAt (fun n => setTextF (pyStr (.vstr "FR"))
            (setAttrF "locale" (secondaryLocale "en") n))
          (processTextNode [("IC_1", [("VAL", "RI_9")])] "en" (.vstr "VAL") .vnull
            (.elem "r" [] none [.elem "p" [] none
              [.elem "b" [("codeList", "u#IC_1")] (some "tmpl") [],
               .elem locStrQ [("locale", "#zzz")] (some "old") []]])
            [0, 0])
          ([0, 0].dropLast ++ [1]) := by
  have h := (set_text_secondary_frame [("IC_1", [("VAL", "RI_9")])] "en" (.vstr "VAL")
    (.vstr "FR")
    (.elem "r" [] none [.elem "p" [] none
      [.elem "b" [("codeList", "u#IC_1")] (some "tmpl") [],
       .elem locStrQ [("locale", "#zzz")] (some "old") []]])
    [0, 0] (.elem "b" [("codeList", "u#IC_1")] (some "tmpl") [])
    (.elem "p" [] none
      [.elem "b" [("codeList", "u#IC_1"), ("codeListValue", "RI_9")] (some "VAL") [],
       .elem locStrQ [("locale", "#zzz")] (some "old") []])
    rfl (by decide) rfl rfl).1 (Or.inr ⟨"RI_9", rfl⟩)
  exact h.2 [1] rfl

/-!
## Claim C1 — scalar entries: skip on empty, write the normalized
value otherwise (amended by the date / spatial-code rewrites)
-/

/-- C1 counterexample: a scalar entry whose XPath contains
`/gco:Date` does *not* leave `normalize(k, resolve(R, p, default))`
in the leaf — `set_text` first truncates the ISO datetime to its date
part, so the leaf text differs from the value the claim predicts. -/
theorem set_text_date_xpath_cex :
    (applyField [] "en" (.vdict [("d", .vstr "2025-01-02T03:04:05")])
        (.elem "r" [] none [.elem (resolve_tag "gmd:x") [] none
          [.elem (resolve_tag "gco:Date") [] (some "old") []]])
        ⟨some "d", none, none, .vnull, some ".//gmd:x/gco:Date", none, none, none⟩).bind
      (fun t => textAt t [0, 0]) = some "2025-01-02" ∧
    pyStr (normalize_controlled_value none
        (get_value (.vdict [("d", .vstr "2025-01-02T03:04:05")]) (some "d") .vnull))
      = "2025-01-02T03:04:05" ∧
    ("2025-01-02" : String) ≠ "2025-01-02T03:04:05" :=
  ⟨rfl, rfl, by decide⟩

/-- C1 (amended): for a non-repeat, non-bilingual entry whose target
leaf carries no (non-empty) codeList attribute, `set_text` sets the
leaf text to `str` of `normalize(k, resolve(R, p, default))` — with
the date rewrite applied when the XPath contains `/gco:Date` and the
spatial-code rewrite when it contains `/gmd:code`
(`dateCodeAdjust`) — whenever that value is non-empty; an empty value
(None, empty string, empty list) is skipped silently and the whole
skeleton, its leaf text included, is returned unchanged. -/
theorem set_text_scalar_leaf_amended (reg : Registry) (lang : String)
    (record : Val) (k src : Option String) (tree : XNode) (xpath : String)
    (q : List Nat) (node : XNode) (v : Val)
    (hv : v = normalize_controlled_value k (get_value record src .vnull))
    (hx : xpathEval tree xpath = [q]) (hq0 : q ≠ [])
    (hnode : getNode tree q = some node)
    (hcl : node.attrs.lookup "codeList" = none ∨
      node.attrs.lookup "codeList" = some "") :
    (pyIsEmptyish v = true → set_text reg lang tree xpath v .vnull = tree) ∧
    (pyIsEmptyish v = false →
      textAt (set_text reg lang tree xpath v .vnull) q
        = some (pyStr (dateCodeAdjust xpath v))) := by
  have hqe : q.isEmpty = false := by
    cases q with
    | nil => exact absurd rfl hq0
    | cons a b => rfl
  have hcd : (node.attrs.lookup "codeList").getD "" = "" := by
    rcases hcl with h | h <;> simp [h]
  constructor
  · intro h
    simp [set_text, h]
  · intro h
    have hstep : set_text reg lang tree xpath v .vnull
        = modifyAt (popAttrF nilReasonQ)
            (modifyAt (setTextF (pyStr (dateCodeAdjust xpath v))) tree q) q.dropLast := by
      unfold set_text
      simp only [h, Bool.false_eq_true, if_false, hx, List.foldl_cons, List.foldl_nil]
      unfold processTextNode
      simp only [hnode, hcd]
      rw [if_neg (by simp)]
      simp [hqe, pyIsEmptyish]
    rw [hstep]
    unfold textAt
    rw [getNode_modifyAt_parent _ (popAttrF_children _) _ _ hq0,
      getNode_modifyAt_self, hnode]
    simp

/-- Witness for the amended C1 on a concrete record, entry and
skeleton. -/
theorem set_text_scalar_leaf_amended_witness :
    textAt (set_text [] "en"
        (.elem "r" [] none [.elem "a" [] none [.elem "b" [] (some "tmpl") []]])
        ".//a/b"
        (normalize_controlled_value none
          (get_value (.vdict [("t", .vstr "VALUE")]) (some "t") .vnull)) .vnull) [0, 0]
      = some (pyStr (dateCodeAdjust ".//a/b"
          (normalize_controlled_value none
            (get_value (.vdict [("t", .vstr "VALUE")]) (some "t") .vnull)))) :=
  (set_text_scalar_leaf_amended [] "en" (.vdict [("t", .vstr "VALUE")]) none (some "t")
      (.elem "r" [] none [.elem "a" [] none [.elem "b" [] (some "tmpl") []]])
      ".//a/b" [0, 0] (.elem "b" [] (some "tmpl") [])
      (normalize_controlled_value none
        (get_value (.vdict [("t", .vstr "VALUE")]) (some "t") .vnull))
      rfl rfl (by decide) rfl (Or.inl rfl)).2 rfl

/-!
## Claim C9 — the forced record identifier and timestamp
-/

/-- C9: after the mapping entries and the pruning pass,
`enforce_required_fields` — the last step of `build_xml` — writes the
record identifier into the first
`gmd:fileIdentifier/gco:CharacterString` leaf and the generation
timestamp into the first `gmd:dateStamp/gco:DateTime` leaf of
whatever tree the mapping produced, overwriting any text a mapping
entry left there; `build_xml` factors exactly through this call. -/
theorem enforce_required_fields_override (tree : XNode) (rid now : String)
    (p q : List Nat) (pn qn : XNode)
    (hp : (relFind tree fidTags).head? = some p)
    (hpn : getNode tree p = some pn)
    (hq : (relFind (enforce_fid tree rid) dsTags).head? = some q)
    (hqn : getNode (enforce_fid tree rid) q = some qn)
    (hpq : p ≠ q) :
    textAt (enforce_required_fields tree rid now) p = some rid ∧
    textAt (enforce_required_fields tree rid now) q = some (now ++ "Z") ∧
    ∀ (reg : Registry) (record : Val) (mapping : List MappingField)
      (base t : XNode),
      applyMapping reg (langOf record) record mapping base = some t →
      build_xml reg record rid mapping base now
        = some (enforce_required_fields (clean_illegal_placeholders t) rid now) := by
  have hfid : enforce_fid tree rid = modifyAt (setTextF rid) tree p := by
    unfold enforce_fid
    rw [hp]
  have henf : enforce_required_fields tree rid now
      = modifyAt (setTextF (now ++ "Z")) (enforce_fid tree rid) q := by
    unfold enforce_required_fields
    simp only [hq]
  refine ⟨?_, ?_, ?_⟩
  · rw [henf, textAt_modifyAt_setTextF_ne _ _ _ _ hpq, hfid]
    unfold textAt
    rw [getNode_modifyAt_self, hpn]
    simp
  · rw [henf]
    unfold textAt
    rw [getNode_modifyAt_self, hqn]
    simp
  · intro reg record mapping base t happ
    unfold build_xml
    simp only [happ]

/-- Witness for C9 on a two-leaf skeleton. -/
theorem enforce_required_fields_override_witness :
    textAt (enforce_required_fields
        (.elem "r" [] none
          [.elem (resolve_tag "gmd:fileIdentifier") [] none
            [.elem (resolve_tag "gco:CharacterString") [] (some "mapped") []],
           .elem (resolve_tag "gmd:dateStamp") [] none
            [.elem (resolve_tag "gco:DateTime") [] (some "mapped") []]])
        "REC-1" "2026-01-01T00:00:00") [0, 0] = some "REC-1" :=
  (enforce_required_fields_override
      (.elem "r" [] none
        [.elem (resolve_tag "gmd:fileIdentifier") [] none
          [.elem (resolve_tag "gco:CharacterString") [] (some "mapped") []],
         .elem (resolve_tag "gmd:dateStamp") [] none
          [.elem (resolve_tag "gco:DateTime") [] (some "mapped") []]])
      "REC-1" "2026-01-01T00:00:00" [0, 0] [1, 0]
      (.elem (resolve_tag "gco:CharacterString") [] (some "mapped") [])
      (.elem (resolve_tag "gco:DateTime") [] (some "mapped") [])
      rfl rfl rfl rfl (by decide)).1

/-!
## Claim C4 — a repeat entry with a scalar value
-/

/-- C4: a repeat entry whose resolved value is a non-empty scalar
string is *not* treated as a one-element sequence —
`set_repeated_values` iterates the string character by character, so
the value `"ab"` produces two repeated instances whose leaf texts are
`"a"` and `"b"` instead of one instance with text `"ab"`. -/
theorem set_repeated_values_scalar_string_bug :
    set_repeated_values "en"
        (.elem "root" [] none [.elem "c" [] none
          [.elem "item" [] none [.elem "L" [] (some "old") []]]])
        ".//c" "item" "L" (.vstr "ab") .vnull
      = some (.elem "root" [] none [.elem "c" [] none
          [.elem "item" [] none [.elem "L" [] (some "a") []],
           .elem "item" [] none [.elem "L" [] (some "b") []]]]) ∧
    (pyIter (.vstr "ab")).map List.length = some 2 :=
  ⟨rfl, rfl⟩

/-!
## Claim C3 — repeat entries clone the placeholder once per value
-/

/-- Reading a `[None] * len(values)` alignment list always yields
`None`. -/
theorem getD_replicate_vnull (n i : Nat) :
    (List.replicate n Val.vnull).getD i .vnull = .vnull := by
  rcases Nat.lt_or_ge i n with h | h
  · simp [List.getD_eq_getElem?_getD, List.getElem?_replicate, h]
  · simp [List.getD_eq_getElem?_getD, List.getElem?_replicate, Nat.not_lt.mpr h]

/-- `list.insert` at the boundary between two sublists. -/
theorem pyInsert_at_length {α : Type} (X Y : List α) (a : α) :
    pyInsert (X ++ Y) X.length a = X ++ a :: Y := by
  simp [pyInsert, List.take_left, List.drop_left]

/-- The clone-insertion loop turns the child list split at the
placeholder index into prefix ++ clones ++ suffix. -/
theorem srvFold_replicate (lang : String) (template : XNode) (vq : String)
    (nfr idx : Nat) (vs : List Val) :
    ∀ (i : Nat) (X Y : List XNode), X.length = idx + i →
      srvFold lang template vq (List.replicate nfr .vnull) idx vs i (X ++ Y)
        = X ++ vs.map (fun v => instantiate lang template vq v .vnull) ++ Y := by
  induction vs with
  | nil =>
    intro i X Y hX
    simp [srvFold]
  | cons v vs ih =>
    intro i X Y hX
    simp only [srvFold, getD_replicate_vnull]
    rw [← hX, pyInsert_at_length]
    have hlen : (X ++ [instantiate lang template vq v .vnull]).length = idx + (i + 1) := by
      simp [hX]
      omega
    have hrec := ih (i + 1) (X ++ [instantiate lang template vq v .vnull]) Y hlen
    have hXc : (X ++ [instantiate lang template vq v .vnull]) ++ Y
        = X ++ instantiate lang template vq v .vnull :: Y := by
      simp
    rw [hXc] at hrec
    rw [hrec]
    simp

/-- Splitting the placeholder-free children at the first placeholder
index: everything before the first match survives the filter
verbatim. -/
theorem filter_findIdx_split {α : Type} (p : α → Bool) (cs : List α)
    (h : cs.findIdx p < cs.length) :
    cs.filter (fun c => !(p c))
        = cs.take (cs.findIdx p) ++ (cs.drop (cs.findIdx p)).filter (fun c => !(p c))
      ∧ (cs.take (cs.findIdx p)).length = cs.findIdx p := by
  induction cs with
  | nil => simp at h
  | cons c cs ih =>
    by_cases hp : p c
    · simp [List.findIdx_cons, hp]
    · have hpf : p c = false := by simp [hp]
      have hidx : (c :: cs).findIdx p = cs.findIdx p + 1 := by
        simp [List.findIdx_cons, hpf]
      have hlt : cs.findIdx p < cs.length := by
        rw [hidx] at h
        simpa using Nat.lt_of_succ_lt_succ h
      obtain ⟨h1, h2⟩ := ih hlt
      constructor
      · rw [hidx]
        simp only [List.take_succ_cons, List.drop_succ_cons]
        rw [List.filter_cons_of_pos (by simp [hpf])]
        rw [h1]
        rfl
      · rw [hidx]
        simp [h2]

/-- Reading the children through a `withChildren` update. -/
theorem map_children_withChildren (container : XNode) (cs : List XNode) :
    ((some container).map (XNode.withChildren cs)).map XNode.children = some cs := by
  cases container
  rfl

/-- The text planted by one clone instantiation sits at the
template's first `value_xpath` descendant. -/
theorem instantiate_textAt (lang : String) (template : XNode) (vq : String)
    (v : Val) (lp : List Nat) (leafN : XNode)
    (hlp : (findDesc template vq).head? = some lp) (hlp0 : lp ≠ [])
    (hleaf : getNode template lp = some leafN) :
    textAt (instantiate lang template vq v .vnull) lp = some (pyStr v) := by
  unfold instantiate
  simp only [hlp, pyTruthy, Bool.false_eq_true, if_false]
  unfold textAt
  rw [getNode_modifyAt_self, getNode_modifyAt_parent _ (popAttrF_children _) _ _ hlp0,
    hleaf]
  simp

/-- C3: for a repeat entry with a list value of length `N ≥ 1` and a
container holding at least one placeholder child of the repeat tag,
the resulting container children are exactly: the non-placeholder
children before the first placeholder's position, then `N` clones of
the first placeholder in value order, then the remaining
non-placeholder children — every placeholder is removed, and the
`i`-th clone's leaf (the first `value_xpath` descendant) carries the
`i`-th value's text. -/
theorem set_repeated_values_clone_spec (lang : String) (tree : XNode)
    (cx rtag vx : String) (vs : List Val) (cpos : List Nat)
    (container template : XNode) (rest : List XNode) (lp : List Nat) (leafN : XNode)
    (hN : vs ≠ [])
    (hc : (xpathEval tree cx).head? = some cpos)
    (hcont : getNode tree cpos = some container)
    (hfil : container.children.filter (fun c => c.tag == resolve_tag rtag)
      = template :: rest)
    (hlp : (findDesc template (resolve_tag vx)).head? = some lp) (hlp0 : lp ≠ [])
    (hleaf : getNode template lp = some leafN) :
    ∃ t', set_repeated_values lang tree cx rtag vx (.vlist vs) .vnull = some t' ∧
      (getNode t' cpos).map XNode.children
        = some ((container.children.filter
              (fun c => !(c.tag == resolve_tag rtag))).take
              (container.children.findIdx (fun c => c.tag == resolve_tag rtag))
            ++ vs.map (fun v => instantiate lang template (resolve_tag vx) v .vnull)
            ++ (container.children.filter
              (fun c => !(c.tag == resolve_tag rtag))).drop
              (container.children.findIdx (fun c => c.tag == resolve_tag rtag))) ∧
      (vs.map (fun v => instantiate lang template (resolve_tag vx) v .vnull)).length
        = vs.length ∧
      (∀ c ∈ container.children.filter (fun c => !(c.tag == resolve_tag rtag)),
        c.tag ≠ resolve_tag rtag) ∧
      (∀ i, ∀ hi : i < vs.length,
        textAt ((vs.map (fun v => instantiate lang template (resolve_tag vx) v .vnull)).get
            ⟨i, by simpa using hi⟩) lp
          = some (pyStr (vs.get ⟨i, hi⟩))) := by
  have hmem : template ∈ container.children.filter (fun c => c.tag == resolve_tag rtag) := by
    rw [hfil]
    exact List.mem_cons_self _ _
  have hmem2 := List.mem_filter.mp hmem
  have hidx : container.children.findIdx (fun c => c.tag == resolve_tag rtag)
      < container.children.length :=
    List.findIdx_lt_length_of_exists ⟨template, hmem2.1, hmem2.2⟩
  have htruthy : (!pyTruthy (Val.vlist vs)) = false := by
    cases vs with
    | nil => exact absurd rfl hN
    | cons a b => rfl
  have hsrv : set_repeated_values lang tree cx rtag vx (.vlist vs) .vnull
      = some (modifyAt (XNode.withChildren (srvFold lang template (resolve_tag vx)
          (List.replicate vs.length .vnull)
          (container.children.findIdx (fun c => c.tag == resolve_tag rtag)) vs 0
          (container.children.filter (fun c => !(c.tag == resolve_tag rtag)))))
          tree cpos) := by
    unfold set_repeated_values
    simp only [htruthy, Bool.false_eq_true, if_false, hc, hcont, hfil]
    rfl
  obtain ⟨hkept, hlen⟩ :=
    filter_findIdx_split (fun c => c.tag == resolve_tag rtag) container.children hidx
  refine ⟨_, hsrv, ?_, by simp, ?_, ?_⟩
  · rw [getNode_modifyAt_self, hcont, map_children_withChildren]
    congr 1
    rw [hkept, srvFold_replicate lang template (resolve_tag vx) vs.length
      (container.children.findIdx (fun c => c.tag == resolve_tag rtag)) vs 0
      (container.children.take
        (container.children.findIdx (fun c => c.tag == resolve_tag rtag)))
      ((container.children.drop
        (container.children.findIdx (fun c => c.tag == resolve_tag rtag))).filter
        (fun c => !(c.tag == resolve_tag rtag)))
      (by rw [Nat.add_zero]; exact hlen)]
    rw [List.take_left' hlen, List.drop_left' hlen]
  · intro c hcm
    have := (List.mem_filter.mp hcm).2
    simpa using this
  · intro i hi
    have hmap : (vs.map (fun v => instantiate lang template (resolve_tag vx) v .vnull)).get
        ⟨i, by simpa using hi⟩
        = instantiate lang template (resolve_tag vx) (vs.get ⟨i, hi⟩) .vnull := by
      simp [List.get_eq_getElem]
    rw [hmap]
    exact instantiate_textAt lang template (resolve_tag vx) _ lp leafN hlp hlp0 hleaf

/-- Witness for C3: three values clone the placeholder three times in
order. -/
theorem set_repeated_values_clone_spec_witness :
    ∃ t', set_repeated_values "en"
        (.elem "root" [] none [.elem "c" [] none
          [.elem "x" [] none [], .elem "item" [] none [.elem "L" [] (some "old") []]]])
        ".//c" "item" "L" (.vlist [.vstr "X", .vstr "Y"]) .vnull = some t' ∧
      (getNode t' [0]).map XNode.children
        = some ([.elem "x" [] none []]
            ++ [Val.vstr "X", Val.vstr "Y"].map
              (fun v => instantiate "en" (.elem "item" [] none [.elem "L" [] (some "old") []])
                (resolve_tag "L") v .vnull)
            ++ []) := by
  obtain ⟨t', h1, h2, h3⟩ := set_repeated_values_clone_spec "en"
    (.elem "root" [] none [.elem "c" [] none
      [.elem "x" [] none [], .elem "item" [] none [.elem "L" [] (some "old") []]]])
    ".//c" "item" "L" [.vstr "X", .vstr "Y"] [0]
    (.elem "c" [] none
      [.elem "x" [] none [], .elem "item" [] none [.elem "L" [] (some "old") []]])
    (.elem "item" [] none [.elem "L" [] (some "old") []]) [] [0]
    (.elem "L" [] (some "old") [])
    (List.cons_ne_nil _ _) rfl rfl rfl rfl (by decide) rfl
  exact ⟨t', h1, h2⟩

end DataPortal
